import Mathlib

/-!
Verification of the `atomman.defect` package initializer and of the
spec-described defect-analysis subsystems (gamma surface, SDVPN solver,
Stroh eigen solution).

The package initializer `atomman/defect/__init__.py` is embedded as a list
of Python top-level statements together with a small interpreter for the
effects those statements have on the module namespace: the set of bound
attribute names and the values of the list-of-string variables
(`__all__` and `point_all`).  The submodule `point` is not part of the
supplied source, so its export list `point.__all__` is a parameter
`pointAll` throughout.

The computational subsystems (gamma surface lookup, the SDVPN iterative
solver, the Stroh eigen solution) are not part of the supplied source
either; they are modelled from the specification, with exact rational
arithmetic standing in for the numeric computation.
-/

/-! ## Code-point lexicographic string order (Python string comparison) -/

/-- Lexicographic comparison of character lists by Unicode code point,
mirroring the Python string comparison used by `list.sort()`. -/
def lexLe : List Char → List Char → Bool
  | [], _ => true
  | _ :: _, [] => false
  | a :: as, b :: bs =>
    if a.toNat < b.toNat then true
    else if b.toNat < a.toNat then false
    else lexLe as bs

/-- Boolean code-point lexicographic order on strings. -/
def strLeB (a b : String) : Bool := lexLe a.data b.data

/-- Propositional code-point lexicographic order on strings. -/
def pyStrLe (a b : String) : Prop := strLeB a b = true

instance : DecidableRel pyStrLe := fun a b => by
  unfold pyStrLe; infer_instance

instance : IsTotal String pyStrLe := by
  constructor
  intro a b
  show lexLe a.data b.data = true ∨ lexLe b.data a.data = true
  generalize a.data = as
  generalize b.data = bs
  induction as generalizing bs with
  | nil => left; rfl
  | cons x xs ih =>
    cases bs with
    | nil => right; rfl
    | cons y ys =>
      by_cases h1 : x.toNat < y.toNat
      · left; simp [lexLe, h1]
      · by_cases h2 : y.toNat < x.toNat
        · right; simp [lexLe, h2]
        · rcases ih ys with h | h
          · left; simp [lexLe, h1, h2, h]
          · right; simp [lexLe, h1, h2, h]

instance : IsTrans String pyStrLe := by
  constructor
  intro a b c hab hbc
  show lexLe a.data c.data = true
  replace hab : lexLe a.data b.data = true := hab
  replace hbc : lexLe b.data c.data = true := hbc
  generalize a.data = as at *
  generalize b.data = bs at *
  generalize c.data = cs at *
  induction as generalizing bs cs with
  | nil => rfl
  | cons x xs ih =>
    cases bs with
    | nil => simp [lexLe] at hab
    | cons y ys =>
      cases cs with
      | nil => simp [lexLe] at hbc
      | cons z zs =>
        simp only [lexLe] at hab hbc ⊢
        by_cases h1 : x.toNat < y.toNat
        · by_cases h2 : y.toNat < z.toNat
          · have h3 : x.toNat < z.toNat := Nat.lt_trans h1 h2
            simp [h3]
          · by_cases h3 : z.toNat < y.toNat
            · simp [h2, h3] at hbc
            · have h4 : x.toNat < z.toNat := by omega
              simp [h4]
        · by_cases h2 : y.toNat < x.toNat
          · simp [h1, h2] at hab
          · simp only [h1, h2, if_false, if_true] at hab
            by_cases h3 : y.toNat < z.toNat
            · have h4 : x.toNat < z.toNat := by omega
              simp [h4]
            · by_cases h4 : z.toNat < y.toNat
              · simp [h3, h4] at hbc
              · simp only [h3, h4, if_false, if_true] at hbc
                have h5 : ¬ x.toNat < z.toNat := by omega
                have h6 : ¬ z.toNat < x.toNat := by omega
                simp [h5, h6, ih ys hab zs hbc]

/-! ## Embedding of the module body of `atomman/defect/__init__.py` -/

/-- A Python top-level statement, at the granularity needed to describe the
package initializer.  Constructors for function definitions, class
definitions and other computations are present so that their absence from
the module body is a meaningful statement. -/
inductive Stmt where
  | importStar (module : String)
  | importFromAs (module : String) (bindings : List (String × String))
  | assignStringList (target : String) (elems : List String)
  | extendCall (target : String) (src : String)
  | sortCall (target : String)
  | defFun (name : String)
  | defClass (name : String)
  | exprStmt
deriving DecidableEq

/-- The literal list assigned to `__all__` in the source. -/
def defectAllLiteral : List String :=
  ["differential_displacement", "disregistry", "slip_vector",
   "nye_tensor", "nye_tensor_p", "Stroh", "GammaSurface",
   "pn_arctan_disregistry", "SDVPN"]

/-- The statements of `atomman/defect/__init__.py`, in source order. -/
def defectModuleBody : List Stmt :=
  [ Stmt.importStar "point",
    Stmt.importFromAs "point" [("__all__", "point_all")],
    Stmt.importFromAs "differential_displacement"
      [("differential_displacement", "differential_displacement")],
    Stmt.importFromAs "disregistry" [("disregistry", "disregistry")],
    Stmt.importFromAs "slip_vector" [("slip_vector", "slip_vector")],
    Stmt.importFromAs "nye_tensor" [("nye_tensor", "nye_tensor")],
    Stmt.importFromAs "nye_tensor_p" [("nye_tensor_p", "nye_tensor_p")],
    Stmt.importFromAs "VolterraDislocation"
      [("VolterraDislocation", "VolterraDislocation")],
    Stmt.importFromAs "Stroh" [("Stroh", "Stroh")],
    Stmt.importFromAs "IsotropicVolterraDislocation"
      [("IsotropicVolterraDislocation", "IsotropicVolterraDislocation")],
    Stmt.importFromAs "solve_volterra_dislocation"
      [("solve_volterra_dislocation", "solve_volterra_dislocation")],
    Stmt.importFromAs "dislocation_array" [("dislocation_array", "dislocation_array")],
    Stmt.importFromAs "GammaSurface" [("GammaSurface", "GammaSurface")],
    Stmt.importFromAs "StackingFault" [("StackingFault", "StackingFault")],
    Stmt.importFromAs "pn_arctan_disregistry"
      [("pn_arctan_disregistry", "pn_arctan_disregistry")],
    Stmt.importFromAs "SDVPN" [("SDVPN", "SDVPN")],
    Stmt.assignStringList "__all__" defectAllLiteral,
    Stmt.extendCall "__all__" "point_all",
    Stmt.sortCall "__all__" ]

/-- The module namespace state: bound attribute names and the values of
list-of-string variables. -/
structure PyState where
  attrs : List String
  lists : List (String × List String)

/-- Look up the current value of a list variable (most recent binding wins). -/
def getList : List (String × List String) → String → List String
  | [], _ => []
  | (a, v) :: rest, k => if a = k then v else getList rest k

/-- Importing `__all__` from the `point` submodule binds its value
(`pointAll`); importing any other object binds no list value. -/
def bindImportedLists (pointAll : List String) (m : String)
    (bs : List (String × String)) (ls : List (String × List String)) :
    List (String × List String) :=
  if m = "point" then
    bs.foldl (fun acc b => if b.1 = "__all__" then (b.2, pointAll) :: acc else acc) ls
  else ls

/-- Effect of one top-level statement on the module namespace.  A starred
point-module import binds the names in `point.__all__`; a `from X import a
as b` statement binds each as-name; assignment binds the target and
records the list value; the `extend`/`sort` method calls update the list
value in place and bind nothing new. -/
def execStmt (pointAll : List String) (st : PyState) : Stmt → PyState
  | Stmt.importStar m =>
      if m = "point" then { st with attrs := st.attrs ++ pointAll } else st
  | Stmt.importFromAs m bs =>
      { st with attrs := st.attrs ++ bs.map Prod.snd,
                lists := bindImportedLists pointAll m bs st.lists }
  | Stmt.assignStringList t es =>
      { st with attrs := st.attrs ++ [t], lists := (t, es) :: st.lists }
  | Stmt.extendCall t s =>
      { st with lists := (t, getList st.lists t ++ getList st.lists s) :: st.lists }
  | Stmt.sortCall t =>
      { st with lists := (t, List.insertionSort pyStrLe (getList st.lists t)) :: st.lists }
  | Stmt.defFun n => { st with attrs := st.attrs ++ [n] }
  | Stmt.defClass n => { st with attrs := st.attrs ++ [n] }
  | Stmt.exprStmt => st

/-- Run the package initializer with `point.__all__ = pointAll`. -/
def runDefectInit (pointAll : List String) : PyState :=
  defectModuleBody.foldl (execStmt pointAll) ⟨[], []⟩

/-- The final value of `__all__` after the initializer runs. -/
def defect_all (pointAll : List String) : List String :=
  getList (runDefectInit pointAll).lists "__all__"

/-- The attribute names bound on the `defect` module by the initializer. -/
def defectAttrs (pointAll : List String) : List String :=
  (runDefectInit pointAll).attrs

/-- A representative value for `point.__all__` (point-defect generators),
used to instantiate theorems at a concrete input. -/
def pointAllSample : List String :=
  ["point", "vacancy", "interstitial", "substitutional", "dumbbell"]

/-- The statement only binds names imported from a sibling submodule. -/
def isImportBinding : Stmt → Bool
  | Stmt.importStar _ => true
  | Stmt.importFromAs _ _ => true
  | _ => false

/-- The statement builds the `__all__` list (literal assignment, extend, sort). -/
def buildsAllList : Stmt → Bool
  | Stmt.assignStringList t _ => decide (t = "__all__")
  | Stmt.extendCall t _ => decide (t = "__all__")
  | Stmt.sortCall t => decide (t = "__all__")
  | _ => false

/-- The statement defines a function, a class, or a computed value of its own. -/
def definesOwnValue : Stmt → Bool
  | Stmt.defFun _ => true
  | Stmt.defClass _ => true
  | Stmt.exprStmt => true
  | _ => false

/-! ## Gamma surface (modelled from the spec) -/

/-- Modelled from the spec: the `GammaSurface` class is referenced by the
initializer but its implementation is not in the supplied source.  It owns
a sampled energy grid over a periodic in-plane domain; coordinates are
fractional (lattice) coordinates, so the lattice vectors of the periodic
domain are the integer vectors. -/
structure GammaSurface where
  nx : ℕ
  ny : ℕ
  data : ℕ → ℕ → ℚ

/-- Modelled from the spec: `energy_at(disregistry_vector) -> scalar` wraps
the input vector modulo the periodic lattice before lookup and bilinearly
interpolates the sampled energy map. -/
def GammaSurface.energy_at (gs : GammaSurface) (v : ℚ × ℚ) : ℚ :=
  let x := Int.fract v.1 * gs.nx
  let y := Int.fract v.2 * gs.ny
  let i := (⌊x⌋).toNat
  let j := (⌊y⌋).toNat
  let tx := x - i
  let ty := y - j
  let g := fun a b => gs.data (a % gs.nx) (b % gs.ny)
  (1 - tx) * (1 - ty) * g i j + tx * (1 - ty) * g (i + 1) j
    + (1 - tx) * ty * g i (j + 1) + tx * ty * g (i + 1) (j + 1)

/-! ## Semi-discrete Peierls-Nabarro (SDVPN) solver (modelled from the spec) -/

/-- A disregistry profile: one disregistry value per slip-plane grid point. -/
abbrev Profile := List ℚ

/-- Modelled from the spec: the data an SDVPN solve couples — the elastic
kernel derived from the Stroh/Volterra solution, and the gamma-surface
misfit gradient and energy. -/
structure PNProblem where
  kernel : ℕ → ℕ → ℚ
  gammaGrad : ℚ → ℚ
  gammaEnergy : ℚ → ℚ

/-- The elastic restoring force: the convolution of the current disregistry
profile against the elastic kernel (the O(N^2) step of the spec). -/
def elasticForce (prob : PNProblem) (p : Profile) : Profile :=
  (List.range p.length).map fun i =>
    ((List.range p.length).map fun j => prob.kernel i j * p.getD j 0).sum

/-- The local misfit force from the gamma-surface gradient at each point. -/
def misfitForce (prob : PNProblem) (p : Profile) : Profile :=
  p.map prob.gammaGrad

/-- The combined force driving the relaxation at each grid point. -/
def totalForce (prob : PNProblem) (p : Profile) : Profile :=
  List.zipWith (fun a b => a + b) (elasticForce prob p) (misfitForce prob p)

/-- The total energy: the elastic double convolution plus the gamma-surface
misfit energy summed over the grid. -/
def totalEnergy (prob : PNProblem) (p : Profile) : ℚ :=
  (1 / 2) * ((List.range p.length).map fun i =>
      ((List.range p.length).map fun j =>
        prob.kernel i j * p.getD i 0 * p.getD j 0).sum).sum
    + (p.map prob.gammaEnergy).sum

/-- One relaxation update with step size `h`: a damped gradient step
balancing elastic and misfit forces. -/
def relaxStep (prob : PNProblem) (h : ℚ) (p : Profile) : Profile :=
  List.zipWith (fun x f => x - h * f) p (totalForce prob p)

/-- Maximum per-point difference between two profiles, the convergence and
residual measure of the solver. -/
def maxAbsDiff (p q : Profile) : ℚ :=
  (List.zipWith (fun a b => |a - b|) p q).foldr max 0

/-- Modelled from the spec: one adaptively damped solver iteration.  A
candidate relaxation step is accepted only when it does not increase the
total energy; otherwise the step size is halved, and when the step size
underflows the floor `hmin` (or the damping budget is exhausted) the
iteration fails, which the solver reports as `DivergedError`. -/
def dampStep (prob : PNProblem) (hmin : ℚ) : ℕ → ℚ → Profile → Option Profile
  | 0, _, _ => none
  | m + 1, h, p =>
    if h < hmin then none
    else
      if totalEnergy prob (relaxStep prob h p) ≤ totalEnergy prob p then
        some (relaxStep prob h p)
      else dampStep prob hmin m (h / 2) p

/-- The record a finished (non-diverged) SDVPN solve returns: the profile,
the final residual, the iteration count, and the convergence flag. -/
structure SolveResult where
  profile : Profile
  residual : ℚ
  iterations : ℕ
  converged : Bool
deriving DecidableEq

/-- Outcome of an SDVPN solve: `diverged` models raising the fatal
`DivergedError`; `done` is a normal return (converged or not). -/
inductive SolveOutcome where
  | diverged
  | done (r : SolveResult)
deriving DecidableEq

/-- Modelled from the spec: the SDVPN iteration loop.  Each iteration
computes the adaptively damped relaxation update; when the maximum
per-point disregistry change falls below the tolerance, the solve returns
converged at the profile where the test passed; when the iteration budget
runs out the solve returns a normal non-converged result carrying the
best-so-far profile, the last residual, and the iteration count. -/
def sdvpnLoop (prob : PNProblem) (h0 hmin tol : ℚ) (dampFuel : ℕ) :
    ℕ → ℕ → ℚ → Profile → SolveOutcome
  | 0, k, res, p => SolveOutcome.done ⟨p, res, k, false⟩
  | n + 1, k, _, p =>
    match dampStep prob hmin dampFuel h0 p with
    | none => SolveOutcome.diverged
    | some c =>
      if maxAbsDiff p c ≤ tol then SolveOutcome.done ⟨p, maxAbsDiff p c, k + 1, true⟩
      else sdvpnLoop prob h0 hmin tol dampFuel n (k + 1) (maxAbsDiff p c) c

/-- Modelled from the spec: `solve(initial_profile, gamma_surface,
elastic_kernel, convergence_tolerance, max_iterations)`, with the gamma
surface and elastic kernel bundled in `prob` and the step-size policy
(`h0`, `hmin`, damping budget) made explicit. -/
def SDVPN_solve (prob : PNProblem) (p0 : Profile) (tol : ℚ)
    (maxIterations : ℕ) (h0 hmin : ℚ) (dampFuel : ℕ) : SolveOutcome :=
  sdvpnLoop prob h0 hmin tol dampFuel maxIterations 0 0 p0

/-- A trivial SDVPN problem with zero kernel and zero misfit: the
relaxation fixes every profile. -/
def pnSample : PNProblem :=
  { kernel := fun _ _ => 0, gammaGrad := fun _ => 0, gammaEnergy := fun _ => 0 }

/-- An SDVPN problem with zero kernel and constant unit misfit gradient:
every relaxation step shifts the profile, so no tolerance below the step
size is ever met. -/
def pnDriftSample : PNProblem :=
  { kernel := fun _ _ => 0, gammaGrad := fun _ => 1, gammaEnergy := fun _ => 0 }

/-! ## Stroh eigen solution (modelled from the spec) -/

/-- A complex number with exact rational parts, standing in for the complex
arithmetic of the sextic eigenvalue problem. -/
structure Cplx where
  re : ℚ
  im : ℚ
deriving DecidableEq

attribute [ext] Cplx

/-- Complex conjugation. -/
def Cplx.conj (z : Cplx) : Cplx := ⟨z.re, -z.im⟩

/-- Lexicographic comparison of rational lists, the comparison machinery
behind the deterministic eigen-mode sort key. -/
def qLexLe : List ℚ → List ℚ → Bool
  | [], _ => true
  | _ :: _, [] => false
  | a :: as, b :: bs =>
    if a < b then true
    else if b < a then false
    else qLexLe as bs

/-- Modelled from the spec: one Stroh eigen mode — an eigenvalue of the
sextic problem together with its (biorthogonality-normalized)
displacement eigenvector, from which the field matrices are assembled. -/
structure StrohMode where
  val : Cplx
  vec : Cplx × Cplx × Cplx
deriving DecidableEq

/-- Conjugation of an eigen mode: the conjugate eigenvalue pairs with the
componentwise-conjugated eigenvector. -/
def StrohMode.conj (m : StrohMode) : StrohMode :=
  ⟨Cplx.conj m.val,
   (Cplx.conj m.vec.1, Cplx.conj m.vec.2.1, Cplx.conj m.vec.2.2)⟩

/-- The full sort key of an eigen mode: the eigenvalue first (real part,
then imaginary part), then the eigenvector components, so equal keys force
equal modes. -/
def modeKey (m : StrohMode) : List ℚ :=
  [m.val.re, m.val.im, m.vec.1.re, m.vec.1.im,
   m.vec.2.1.re, m.vec.2.1.im, m.vec.2.2.re, m.vec.2.2.im]

/-- Deterministic total order on eigen modes: by eigenvalue, ties broken
by the eigenvector components. -/
def modeLe (a b : StrohMode) : Prop := qLexLe (modeKey a) (modeKey b) = true

instance : DecidableRel modeLe := fun a b => by
  unfold modeLe; infer_instance

instance : IsTotal StrohMode modeLe := by
  constructor
  intro a b
  unfold modeLe
  generalize modeKey a = as
  generalize modeKey b = bs
  induction as generalizing bs with
  | nil => left; rfl
  | cons x xs ih =>
    cases bs with
    | nil => right; rfl
    | cons y ys =>
      by_cases h1 : x < y
      · left; simp [qLexLe, h1]
      · by_cases h2 : y < x
        · right; simp [qLexLe, h2]
        · rcases ih ys with h | h
          · left; simp [qLexLe, h1, h2, h]
          · right; simp [qLexLe, h1, h2, h]

instance : IsTrans StrohMode modeLe := by
  constructor
  intro a b c hab hbc
  unfold modeLe at *
  generalize modeKey a = as at *
  generalize modeKey b = bs at *
  generalize modeKey c = cs at *
  induction as generalizing bs cs with
  | nil => rfl
  | cons x xs ih =>
    cases bs with
    | nil => simp [qLexLe] at hab
    | cons y ys =>
      cases cs with
      | nil => simp [qLexLe] at hbc
      | cons z zs =>
        simp only [qLexLe] at hab hbc ⊢
        by_cases h1 : x < y
        · by_cases h2 : y < z
          · have h4 : x < z := lt_trans h1 h2
            simp [h4]
          · by_cases h3 : z < y
            · simp [h2, h3] at hbc
            · have h4 : x < z := lt_of_lt_of_le h1 (not_lt.1 h3)
              simp [h4]
        · by_cases h2 : y < x
          · simp [h1, h2] at hab
          · simp only [h1, h2, if_false, if_true] at hab
            by_cases h3 : y < z
            · have h4 : x < z := lt_of_le_of_lt (not_lt.1 h2) h3
              simp [h4]
            · by_cases h4 : z < y
              · simp [h3, h4] at hbc
              · simp only [h3, h4, if_false, if_true] at hbc
                have hxy : x = y := le_antisymm (not_lt.1 h2) (not_lt.1 h1)
                have hyz : y = z := le_antisymm (not_lt.1 h4) (not_lt.1 h3)
                subst hxy
                subst hyz
                simp [lt_irrefl, ih ys hab zs hbc]

instance : IsAntisymm StrohMode modeLe := by
  constructor
  intro a b hab hba
  have hk : modeKey a = modeKey b := by
    unfold modeLe at hab hba
    generalize modeKey a = as at *
    generalize modeKey b = bs at *
    induction as generalizing bs with
    | nil =>
      cases bs with
      | nil => rfl
      | cons y ys => simp [qLexLe] at hba
    | cons x xs ih =>
      cases bs with
      | nil => simp [qLexLe] at hab
      | cons y ys =>
        simp only [qLexLe] at hab hba
        by_cases h1 : x < y
        · simp [h1, asymm h1] at hba
        · by_cases h2 : y < x
          · simp [h1, h2] at hab
          · have hxy : x = y := le_antisymm (not_lt.1 h2) (not_lt.1 h1)
            simp only [h1, h2, if_false, if_true] at hab hba
            simp [hxy, ih ys hab hba]
  cases a with
  | mk av avec =>
    cases b with
    | mk bv bvec =>
      obtain ⟨a1, a2, a3⟩ := avec
      obtain ⟨b1, b2, b3⟩ := bvec
      obtain ⟨avr, avi⟩ := av
      obtain ⟨bvr, bvi⟩ := bv
      obtain ⟨a1r, a1i⟩ := a1
      obtain ⟨b1r, b1i⟩ := b1
      obtain ⟨a2r, a2i⟩ := a2
      obtain ⟨b2r, b2i⟩ := b2
      obtain ⟨a3r, a3i⟩ := a3
      obtain ⟨b3r, b3i⟩ := b3
      simp only [modeKey, List.cons.injEq, and_true] at hk
      obtain ⟨e1, e2, e3, e4, e5, e6, e7, e8⟩ := hk
      subst_vars
      rfl

/-- Modelled from the spec: the six eigen modes of the Stroh sextic
problem for a valid positive-definite stiffness tensor.  The eigensolver
determines three modes whose eigenvalues have positive imaginary part
(`m1`, `m2`, `m3`); the full mode set is those modes together with their
conjugates. -/
def strohModes (m1 m2 m3 : StrohMode) : List StrohMode :=
  [m1, StrohMode.conj m1, m2, StrohMode.conj m2, m3, StrohMode.conj m3]

/-- Modelled from the spec: canonical pairing and ordering — from each
conjugate pair the mode whose eigenvalue has positive imaginary part is
chosen, and the chosen modes (eigenvalues together with their
eigenvectors) are sorted deterministically. -/
def canonicalModes (l : List StrohMode) : List StrohMode :=
  List.insertionSort modeLe (l.filter fun m => decide (0 < m.val.im))

/-- A concrete upper-half-plane eigen mode used to instantiate theorems. -/
def strohModeSample1 : StrohMode := ⟨⟨0, 1⟩, (⟨1, 0⟩, ⟨0, 0⟩, ⟨0, 0⟩)⟩

/-- A second concrete upper-half-plane eigen mode. -/
def strohModeSample2 : StrohMode := ⟨⟨1, 1⟩, (⟨0, 1⟩, ⟨0, 0⟩, ⟨0, 0⟩)⟩

/-- A third concrete upper-half-plane eigen mode. -/
def strohModeSample3 : StrohMode := ⟨⟨2, 1⟩, (⟨0, 0⟩, ⟨1, 1⟩, ⟨0, 0⟩)⟩

/-! ## Helper lemmas for the export-list interpreter -/

/-- Closed form of the final `__all__`: the literal nine names extended by
`point.__all__`, then sorted. -/
theorem defect_all_eq (pointAll : List String) :
    defect_all pointAll = List.insertionSort pyStrLe (defectAllLiteral ++ pointAll) := rfl

/-- Membership in the final `__all__` is membership in the literal list or
in `point.__all__`. -/
theorem mem_defect_all_iff (pointAll : List String) (z : String) :
    z ∈ defect_all pointAll ↔ (z ∈ defectAllLiteral ∨ z ∈ pointAll) := by
  rw [defect_all_eq]
  rw [(List.perm_insertionSort pyStrLe (defectAllLiteral ++ pointAll)).mem_iff]
  exact List.mem_append

/-- The attribute names the initializer binds: the starred `point` exports
followed by the sixteen directly bound names. -/
theorem defectAttrs_eq (pointAll : List String) :
    defectAttrs pointAll =
      pointAll ++
        ["point_all", "differential_displacement", "disregistry", "slip_vector",
         "nye_tensor", "nye_tensor_p", "VolterraDislocation", "Stroh",
         "IsotropicVolterraDislocation", "solve_volterra_dislocation",
         "dislocation_array", "GammaSurface", "StackingFault",
         "pn_arctan_disregistry", "SDVPN", "__all__"] := by
  simp [defectAttrs, runDefectInit, defectModuleBody, execStmt, bindImportedLists]

/-! ## Claims about the package initializer -/

/-- C1 (counterexample): with a representative point-defect export list,
the final `__all__` does not contain all four spec-named entry points
`solve`, `GammaSurface`, `VolterraDislocation`, `SDVPNSolver`; only
`GammaSurface` is present. -/
theorem defect_all_missing_spec_names :
    ¬ ("solve" ∈ defect_all pointAllSample ∧ "GammaSurface" ∈ defect_all pointAllSample ∧
       "VolterraDislocation" ∈ defect_all pointAllSample ∧ "SDVPNSolver" ∈ defect_all pointAllSample) := by
  decide

/-- C1 (amended): the export list always contains `GammaSurface`, `Stroh`
and `SDVPN` (the actual names of the gamma-surface, Stroh and solver entry
points), while `solve`, `VolterraDislocation` and `SDVPNSolver` are
exported only if `point.__all__` itself contributes them. -/
theorem defect_all_actual_entry_points (pointAll : List String)
    (h : "solve" ∉ pointAll ∧ "VolterraDislocation" ∉ pointAll ∧ "SDVPNSolver" ∉ pointAll) :
    "GammaSurface" ∈ defect_all pointAll ∧
    "Stroh" ∈ defect_all pointAll ∧
    "SDVPN" ∈ defect_all pointAll ∧
    "solve" ∉ defect_all pointAll ∧
    "VolterraDislocation" ∉ defect_all pointAll ∧
    "SDVPNSolver" ∉ defect_all pointAll := by
  obtain ⟨h1, h2, h3⟩ := h
  refine ⟨?_, ?_, ?_, ?_, ?_, ?_⟩
  · exact (mem_defect_all_iff _ _).2 (Or.inl (by decide))
  · exact (mem_defect_all_iff _ _).2 (Or.inl (by decide))
  · exact (mem_defect_all_iff _ _).2 (Or.inl (by decide))
  all_goals (rw [mem_defect_all_iff]; rintro (hc | hc); · revert hc; decide
             · first | exact h1 hc | exact h2 hc | exact h3 hc)

/-- Witness for the amended C1 at the representative `point.__all__`. -/
theorem defect_all_actual_entry_points_witness :
    ("solve" ∉ pointAllSample ∧ "VolterraDislocation" ∉ pointAllSample ∧ "SDVPNSolver" ∉ pointAllSample) ∧
    ("GammaSurface" ∈ defect_all pointAllSample ∧
     "Stroh" ∈ defect_all pointAllSample ∧
     "SDVPN" ∈ defect_all pointAllSample ∧
     "solve" ∉ defect_all pointAllSample ∧
     "VolterraDislocation" ∉ defect_all pointAllSample ∧
     "SDVPNSolver" ∉ defect_all pointAllSample) :=
  ⟨by decide, defect_all_actual_entry_points pointAllSample (by decide)⟩

/-- C2: every top-level statement of the initializer either binds imported
names or builds the `__all__` list, and none defines a function, class, or
computed value of its own. -/
theorem defect_init_no_algorithmic_logic :
    (defectModuleBody.all fun s => (isImportBinding s || buildsAllList s) && !definesOwnValue s) = true := by
  decide

/-- C3: for every value of `point.__all__`, the final `__all__` is exactly
(as a multiset, with multiplicity, nothing deduplicated) the nine literal
names together with every element of `point.__all__`, and it is sorted in
ascending code-point lexicographic order. -/
theorem defect_all_content_and_order (pointAll : List String) :
    (defect_all pointAll).Perm (defectAllLiteral ++ pointAll) ∧
      (defect_all pointAll).Sorted pyStrLe := by
  rw [defect_all_eq]
  exact ⟨List.perm_insertionSort _ _, List.sorted_insertionSort _ _⟩

/-- C4: the initializer binds module attributes covering every functional
area the spec enumerates: Volterra/Stroh dislocation fields, gamma
surfaces and stacking faults, Peierls-Nabarro models, and per-atom
analysis metrics. -/
theorem defect_init_covers_functional_areas (pointAll : List String) :
    "VolterraDislocation" ∈ defectAttrs pointAll ∧
    "Stroh" ∈ defectAttrs pointAll ∧
    "IsotropicVolterraDislocation" ∈ defectAttrs pointAll ∧
    "solve_volterra_dislocation" ∈ defectAttrs pointAll ∧
    "GammaSurface" ∈ defectAttrs pointAll ∧
    "StackingFault" ∈ defectAttrs pointAll ∧
    "pn_arctan_disregistry" ∈ defectAttrs pointAll ∧
    "SDVPN" ∈ defectAttrs pointAll ∧
    "differential_displacement" ∈ defectAttrs pointAll ∧
    "disregistry" ∈ defectAttrs pointAll ∧
    "slip_vector" ∈ defectAttrs pointAll ∧
    "nye_tensor" ∈ defectAttrs pointAll ∧
    "nye_tensor_p" ∈ defectAttrs pointAll := by
  rw [defectAttrs_eq]
  refine ⟨?_, ?_, ?_, ?_, ?_, ?_, ?_, ?_, ?_, ?_, ?_, ?_, ?_⟩ <;>
    exact List.mem_append_right _ (by decide)

/-- C5: `VolterraDislocation`, `IsotropicVolterraDislocation`,
`solve_volterra_dislocation`, `dislocation_array` and `StackingFault` are
bound as module attributes, yet (provided `point.__all__` does not contain
them) none of them is in the final `__all__`, so a wildcard import does
not export them. -/
theorem defect_internal_names_not_exported (pointAll : List String)
    (h : "VolterraDislocation" ∉ pointAll ∧ "IsotropicVolterraDislocation" ∉ pointAll ∧
         "solve_volterra_dislocation" ∉ pointAll ∧ "dislocation_array" ∉ pointAll ∧
         "StackingFault" ∉ pointAll) :
    ("VolterraDislocation" ∈ defectAttrs pointAll ∧ "VolterraDislocation" ∉ defect_all pointAll) ∧
    ("IsotropicVolterraDislocation" ∈ defectAttrs pointAll ∧ "IsotropicVolterraDislocation" ∉ defect_all pointAll) ∧
    ("solve_volterra_dislocation" ∈ defectAttrs pointAll ∧ "solve_volterra_dislocation" ∉ defect_all pointAll) ∧
    ("dislocation_array" ∈ defectAttrs pointAll ∧ "dislocation_array" ∉ defect_all pointAll) ∧
    ("StackingFault" ∈ defectAttrs pointAll ∧ "StackingFault" ∉ defect_all pointAll) := by
  obtain ⟨h1, h2, h3, h4, h5⟩ := h
  refine ⟨⟨?_, ?_⟩, ⟨?_, ?_⟩, ⟨?_, ?_⟩, ⟨?_, ?_⟩, ⟨?_, ?_⟩⟩
  all_goals first
    | (rw [defectAttrs_eq]; exact List.mem_append_right _ (by decide))
    | (rw [mem_defect_all_iff]; rintro (hc | hc); · revert hc; decide
       · first | exact h1 hc | exact h2 hc | exact h3 hc | exact h4 hc | exact h5 hc)

/-- Witness for C5 at the representative `point.__all__`. -/
theorem defect_internal_names_not_exported_witness :
    ("VolterraDislocation" ∉ pointAllSample ∧ "IsotropicVolterraDislocation" ∉ pointAllSample ∧
      "solve_volterra_dislocation" ∉ pointAllSample ∧ "dislocation_array" ∉ pointAllSample ∧
      "StackingFault" ∉ pointAllSample) ∧
    (("VolterraDislocation" ∈ defectAttrs pointAllSample ∧ "VolterraDislocation" ∉ defect_all pointAllSample) ∧
    ("IsotropicVolterraDislocation" ∈ defectAttrs pointAllSample ∧ "IsotropicVolterraDislocation" ∉ defect_all pointAllSample) ∧
    ("solve_volterra_dislocation" ∈ defectAttrs pointAllSample ∧ "solve_volterra_dislocation" ∉ defect_all pointAllSample) ∧
    ("dislocation_array" ∈ defectAttrs pointAllSample ∧ "dislocation_array" ∉ defect_all pointAllSample) ∧
    ("StackingFault" ∈ defectAttrs pointAllSample ∧ "StackingFault" ∉ defect_all pointAllSample)) :=
  ⟨by decide, defect_internal_names_not_exported pointAllSample (by decide)⟩

/-! ## Claims about the gamma surface -/

/-- C6: the gamma-surface energy lookup is invariant under translation by
any lattice vector of the periodic domain (in fractional coordinates, any
integer vector): wrapping modulo the lattice happens before lookup. -/
theorem gammaSurface_energy_periodic (gs : GammaSurface) (v : ℚ × ℚ) (m n : ℤ) :
    gs.energy_at (v.1 + (m : ℚ), v.2 + (n : ℚ)) = gs.energy_at v := by
  simp only [GammaSurface.energy_at, Int.fract_add_int]

/-! ## Claims about the SDVPN solver -/

theorem foldr_max_nonneg (l : List ℚ) : 0 ≤ l.foldr max 0 := by
  induction l with
  | nil => exact le_refl 0
  | cons a l ih => exact le_max_of_le_right ih

theorem maxAbsDiff_nonneg (p q : Profile) : 0 ≤ maxAbsDiff p q :=
  foldr_max_nonneg _

theorem maxAbsDiff_self (p : Profile) : maxAbsDiff p p = 0 := by
  unfold maxAbsDiff
  induction p with
  | nil => rfl
  | cons a p ih =>
    simp only [List.zipWith_cons_cons, List.foldr_cons, sub_self, abs_zero]
    rw [ih]
    exact max_self 0

theorem sum_map_zero {α : Type} (l : List α) : (l.map fun _ => (0 : ℚ)).sum = 0 := by
  induction l with
  | nil => rfl
  | cons a l ih => simp [ih]

/-- C9: the solver's iteration step never increases the total energy: any
profile accepted by the adaptively damped update has total energy at most
that of the previous iterate. -/
theorem dampStep_energy_nonincreasing (prob : PNProblem) (hmin : ℚ) (dampFuel : ℕ)
    (h : ℚ) (p c : Profile) (hc : dampStep prob hmin dampFuel h p = some c) :
    totalEnergy prob c ≤ totalEnergy prob p := by
  induction dampFuel generalizing h with
  | zero => simp [dampStep] at hc
  | succ m ih =>
    rw [dampStep] at hc
    by_cases h1 : h < hmin
    · simp [h1] at hc
    · rw [if_neg h1] at hc
      by_cases h2 : totalEnergy prob (relaxStep prob h p) ≤ totalEnergy prob p
      · rw [if_pos h2, Option.some.injEq] at hc
        rw [← hc]
        exact h2
      · rw [if_neg h2] at hc
        exact ih _ hc

/-- When the first relaxation try does not increase the energy and the
step size is above the floor, the damped iteration accepts it. -/
theorem dampStep_first_try (prob : PNProblem) (hmin h0 : ℚ) (m : ℕ) (p : Profile)
    (hh : ¬ h0 < hmin)
    (hE : totalEnergy prob (relaxStep prob h0 p) ≤ totalEnergy prob p) :
    dampStep prob hmin (m + 1) h0 p = some (relaxStep prob h0 p) := by
  rw [dampStep, if_neg hh, if_pos hE]

/-- When no iterate ever meets the tolerance and no damping failure occurs,
the loop consumes its whole iteration budget and ends in a normal
non-converged result. -/
theorem sdvpnLoop_cap (prob : PNProblem) (h0 hmin tol : ℚ) (dampFuel : ℕ)
    (hdf : 0 < dampFuel) (hh : ¬ h0 < hmin)
    (hE : ∀ q, totalEnergy prob (relaxStep prob h0 q) ≤ totalEnergy prob q)
    (hres : ∀ q, tol < maxAbsDiff q (relaxStep prob h0 q)) :
    ∀ n k res p, ∃ r, sdvpnLoop prob h0 hmin tol dampFuel n k res p = SolveOutcome.done r ∧
      r.converged = false ∧ r.iterations = k + n := by
  intro n
  induction n with
  | zero => intro k res p; exact ⟨⟨p, res, k, false⟩, rfl, rfl, rfl⟩
  | succ n ih =>
    intro k res p
    obtain ⟨m, rfl⟩ : ∃ m, dampFuel = m + 1 := ⟨dampFuel - 1, by omega⟩
    have hd := dampStep_first_try prob hmin h0 m p hh (hE p)
    have hlt := hres p
    obtain ⟨r, hr, hcv, hit⟩ := ih (k + 1) (maxAbsDiff p (relaxStep prob h0 p)) (relaxStep prob h0 p)
    refine ⟨r, ?_, hcv, by omega⟩
    rw [sdvpnLoop, hd]
    dsimp only
    simp only [if_neg (not_le.2 hlt)]
    exact hr

/-- C7: a solve invocation that reaches `max_iterations` without meeting
the convergence tolerance does not raise an error: it returns a normal
(partial-success) result, whose record carries the best-so-far profile,
the final residual, and the iteration count (equal to the cap). -/
theorem sdvpn_max_iterations_normal_result (prob : PNProblem) (p0 : Profile)
    (tol : ℚ) (maxIterations : ℕ) (h0 hmin : ℚ) (dampFuel : ℕ)
    (hdf : 0 < dampFuel) (hh : hmin ≤ h0)
    (hE : ∀ q, totalEnergy prob (relaxStep prob h0 q) ≤ totalEnergy prob q)
    (hres : ∀ q, tol < maxAbsDiff q (relaxStep prob h0 q)) :
    ∃ r, SDVPN_solve prob p0 tol maxIterations h0 hmin dampFuel = SolveOutcome.done r ∧
      r.converged = false ∧ r.iterations = maxIterations := by
  have := sdvpnLoop_cap prob h0 hmin tol dampFuel hdf (not_lt.2 hh) hE hres maxIterations 0 0 p0
  simpa [SDVPN_solve] using this

theorem totalEnergy_pnDriftSample (q : Profile) : totalEnergy pnDriftSample q = 0 := by
  unfold totalEnergy pnDriftSample
  simp [sum_map_zero]

/-- Witness for C7: a drifting problem under a negative tolerance runs its
whole two-iteration budget and returns a normal non-converged result. -/
theorem sdvpn_max_iterations_normal_result_witness :
    (0 : ℚ) ≤ 1 ∧
    (∃ r, SDVPN_solve pnDriftSample [0] (-1) 2 1 1 1 = SolveOutcome.done r ∧
      r.converged = false ∧ r.iterations = 2) := by
  constructor
  · norm_num
  · exact sdvpn_max_iterations_normal_result pnDriftSample [0] (-1) 2 1 1 1
      (by decide) (le_refl 1)
      (fun q => by rw [totalEnergy_pnDriftSample, totalEnergy_pnDriftSample])
      (fun q => lt_of_lt_of_le (by norm_num) (maxAbsDiff_nonneg _ _))

theorem totalEnergy_pnSample (q : Profile) : totalEnergy pnSample q = 0 := by
  unfold totalEnergy pnSample
  simp [sum_map_zero]

theorem relaxStep_pnSample (p : Profile) : relaxStep pnSample 1 p = p := by
  unfold relaxStep totalForce elasticForce misfitForce pnSample
  simp only [zero_mul, sum_map_zero, List.map_const]
  induction p with
  | nil => rfl
  | cons a p ih => simp_all [List.replicate, List.zipWith]

theorem dampStep_pnSample : dampStep pnSample 1 1 1 [0] = some [0] := by
  have h := dampStep_first_try pnSample 1 1 0 [0] (by norm_num)
    (by rw [totalEnergy_pnSample, totalEnergy_pnSample])
  rw [relaxStep_pnSample] at h
  exact h

/-- Witness for C9 at a concrete accepted iteration step. -/
theorem dampStep_energy_nonincreasing_witness :
    dampStep pnSample 1 1 1 [0] = some [0] ∧
      totalEnergy pnSample [0] ≤ totalEnergy pnSample [0] :=
  ⟨dampStep_pnSample,
   dampStep_energy_nonincreasing pnSample 1 1 1 [0] [0] dampStep_pnSample⟩

/-- A converged solve stopped exactly where the damped update moves the
profile by at most the tolerance. -/
theorem sdvpnLoop_converged_residual (prob : PNProblem) (h0 hmin tol : ℚ) (dampFuel : ℕ) :
    ∀ n k res p r, sdvpnLoop prob h0 hmin tol dampFuel n k res p = SolveOutcome.done r →
      r.converged = true →
      ∃ c, dampStep prob hmin dampFuel h0 r.profile = some c ∧ maxAbsDiff r.profile c ≤ tol := by
  intro n
  induction n with
  | zero =>
    intro k res p r hr hcv
    rw [sdvpnLoop] at hr
    cases hr
    simp at hcv
  | succ n ih =>
    intro k res p r hr hcv
    rw [sdvpnLoop] at hr
    cases hd : dampStep prob hmin dampFuel h0 p with
    | none => rw [hd] at hr; cases hr
    | some c =>
      rw [hd] at hr
      dsimp only at hr
      by_cases ht : maxAbsDiff p c ≤ tol
      · rw [if_pos ht] at hr
        cases hr
        exact ⟨c, hd, ht⟩
      · rw [if_neg ht] at hr
        exact ih _ _ _ _ hr hcv

/-- C8: re-running `solve` on an already-converged profile with the same
problem, step policy and tolerance immediately converges again and returns
the same profile, whose maximum per-point difference from the input is
zero, hence within the tolerance (the converged profile is a stable fixed
point of the solver). -/
theorem sdvpn_converged_fixed_point (prob : PNProblem) (p0 : Profile) (tol : ℚ)
    (maxIterations maxIterations2 : ℕ) (h0 hmin : ℚ) (dampFuel : ℕ) (r : SolveResult)
    (hrun : SDVPN_solve prob p0 tol maxIterations h0 hmin dampFuel = SolveOutcome.done r)
    (hcv : r.converged = true) (hm2 : 0 < maxIterations2) :
    ∃ r2, SDVPN_solve prob r.profile tol maxIterations2 h0 hmin dampFuel = SolveOutcome.done r2 ∧
      r2.converged = true ∧ r2.profile = r.profile ∧ maxAbsDiff r.profile r2.profile ≤ tol := by
  obtain ⟨c, hd, ht⟩ := sdvpnLoop_converged_residual prob h0 hmin tol dampFuel
    maxIterations 0 0 p0 r hrun hcv
  obtain ⟨m, rfl⟩ : ∃ m, maxIterations2 = m + 1 := ⟨maxIterations2 - 1, by omega⟩
  refine ⟨⟨r.profile, maxAbsDiff r.profile c, 1, true⟩, ?_, rfl, rfl, ?_⟩
  · unfold SDVPN_solve
    rw [sdvpnLoop, hd]
    dsimp only
    rw [if_pos ht]
  · simp only [maxAbsDiff_self]
    exact le_trans (maxAbsDiff_nonneg _ _) ht

/-- A concrete converged solve on the trivial problem. -/
theorem sdvpn_pnSample_run :
    SDVPN_solve pnSample [0] 0 1 1 1 1 = SolveOutcome.done ⟨[0], 0, 1, true⟩ := by
  unfold SDVPN_solve
  rw [sdvpnLoop, dampStep_pnSample]
  dsimp only
  rw [if_pos (le_of_eq (maxAbsDiff_self [0]))]
  rw [maxAbsDiff_self]

/-- Witness for C8 at a concrete converged run. -/
theorem sdvpn_converged_fixed_point_witness :
    SDVPN_solve pnSample [0] 0 1 1 1 1 = SolveOutcome.done ⟨[0], 0, 1, true⟩ ∧
    (∃ r2, SDVPN_solve pnSample (SolveResult.profile ⟨[0], 0, 1, true⟩) 0 1 1 1 1 = SolveOutcome.done r2 ∧
      r2.converged = true ∧ r2.profile = SolveResult.profile ⟨[0], 0, 1, true⟩ ∧
      maxAbsDiff (SolveResult.profile ⟨[0], 0, 1, true⟩) r2.profile ≤ 0) :=
  ⟨sdvpn_pnSample_run,
   sdvpn_converged_fixed_point pnSample [0] 0 1 1 1 1 1 ⟨[0], 0, 1, true⟩
     sdvpn_pnSample_run rfl (by decide)⟩

/-! ## Claims about the Stroh eigen solution -/

theorem conj_conj (z : Cplx) : Cplx.conj (Cplx.conj z) = z := by
  simp [Cplx.conj]

/-- Conjugating an eigen mode twice (eigenvalue and eigenvector alike)
gives the mode back. -/
theorem mode_conj_conj (m : StrohMode) : StrohMode.conj (StrohMode.conj m) = m := by
  cases m with
  | mk v w =>
    obtain ⟨w1, w2, w3⟩ := w
    simp [StrohMode.conj, conj_conj]

/-- C10: for eigen modes whose eigenvalues lie in the upper half plane (as
the spec guarantees for valid positive-definite stiffness), the six Stroh
eigen modes form 3 complex-conjugate pairs — the set of eigenvalue and
eigenvector pairs is closed under conjugation — and the canonical
selection (the positive-imaginary-part member of each pair, sorted
deterministically) returns the same sorted eigenvalues together with the
same eigenvectors for every ordering the eigensolver may emit, so two
calls with identical input agree and field evaluation is reproducible
across calls. -/
theorem stroh_conjugate_pairs_deterministic (m1 m2 m3 : StrohMode)
    (h1 : 0 < m1.val.im) (h2 : 0 < m2.val.im) (h3 : 0 < m3.val.im) :
    (∀ m ∈ strohModes m1 m2 m3, StrohMode.conj m ∈ strohModes m1 m2 m3) ∧
    (strohModes m1 m2 m3).length = 6 ∧
    (canonicalModes (strohModes m1 m2 m3)).Perm [m1, m2, m3] ∧
    (canonicalModes (strohModes m1 m2 m3)).Sorted modeLe ∧
    (∀ l, l.Perm (strohModes m1 m2 m3) →
      canonicalModes l = canonicalModes (strohModes m1 m2 m3)) := by
  have hf : (strohModes m1 m2 m3).filter (fun m => decide (0 < m.val.im)) = [m1, m2, m3] := by
    have n1 : ¬ (0 : ℚ) < -m1.val.im := by linarith
    have n2 : ¬ (0 : ℚ) < -m2.val.im := by linarith
    have n3 : ¬ (0 : ℚ) < -m3.val.im := by linarith
    simp [strohModes, StrohMode.conj, Cplx.conj, List.filter, h1, h2, h3, n1, n2, n3]
  refine ⟨?_, rfl, ?_, ?_, ?_⟩
  · intro m hm
    simp only [strohModes, List.mem_cons, List.not_mem_nil, or_false] at hm ⊢
    rcases hm with rfl | rfl | rfl | rfl | rfl | rfl <;> simp [mode_conj_conj]
  · unfold canonicalModes
    rw [hf]
    exact List.perm_insertionSort _ _
  · exact List.sorted_insertionSort _ _
  · intro l hl
    have hfilter : (l.filter fun m => decide (0 < m.val.im)).Perm
        ((strohModes m1 m2 m3).filter fun m => decide (0 < m.val.im)) :=
      hl.filter _
    have hperm : (canonicalModes l).Perm
        (canonicalModes (strohModes m1 m2 m3)) :=
      ((List.perm_insertionSort _ _).trans hfilter).trans
        (List.perm_insertionSort _ _).symm
    exact List.eq_of_perm_of_sorted hperm
      (List.sorted_insertionSort _ _) (List.sorted_insertionSort _ _)

/-- Witness for C10 at three concrete upper-half-plane eigen modes. -/
theorem stroh_conjugate_pairs_deterministic_witness :
    (0 : ℚ) < strohModeSample1.val.im ∧
    ((∀ m ∈ strohModes strohModeSample1 strohModeSample2 strohModeSample3,
        StrohMode.conj m ∈ strohModes strohModeSample1 strohModeSample2 strohModeSample3) ∧
     (strohModes strohModeSample1 strohModeSample2 strohModeSample3).length = 6 ∧
     (canonicalModes (strohModes strohModeSample1 strohModeSample2 strohModeSample3)).Perm
       [strohModeSample1, strohModeSample2, strohModeSample3] ∧
     (canonicalModes (strohModes strohModeSample1 strohModeSample2 strohModeSample3)).Sorted modeLe ∧
     (∀ l, l.Perm (strohModes strohModeSample1 strohModeSample2 strohModeSample3) →
       canonicalModes l =
         canonicalModes (strohModes strohModeSample1 strohModeSample2 strohModeSample3))) :=
  ⟨show (0 : ℚ) < 1 by norm_num,
   stroh_conjugate_pairs_deterministic strohModeSample1 strohModeSample2 strohModeSample3
     (show (0 : ℚ) < 1 by norm_num) (show (0 : ℚ) < 1 by norm_num)
     (show (0 : ℚ) < 1 by norm_num)⟩
